import Mathlib

/-!
Verification development for the tm task tracker (Rust workspace: tm-core,
tm-ui, tm CLI).  The core is embedded shallowly: strings are lists of
characters, file contents are strings, and the store operations are modelled
as pure functions from file content to file content.  File-system plumbing
(paths, directory walking, the read and write calls themselves) is abstracted
away: a listing scan receives the list of file contents it would have read,
and a single-record mutation receives the content of the located file.
The YAML metadata codec used by the Rust code (serde_yaml) is an external
library; it is modelled here for the plain-scalar documents the program
itself writes: one "field: value" line per field, "null" for absent optional
fields, and a "- item" line per tag.
-/

namespace TM

/-- Character-list strings, the carrier for all embedded text. -/
abbrev Str := List Char

/-! ## Status lifecycle (tm-core/src/lib.rs, enum Status) -/

/-- Embeds enum Status of tm-core/src/lib.rs. -/
inductive Status
  | Todo
  | Doing
  | Done
deriving DecidableEq, Fintype

/-- Embeds Status::as_str. -/
def Status.as_str : Status → Str
  | .Todo => "todo".toList
  | .Doing => "doing".toList
  | .Done => "done".toList

/-- Embeds Status::from_str: unknown strings fall through to Todo. -/
def Status.from_str (s : Str) : Status :=
  if s = "doing".toList ∨ s = "in-progress".toList ∨ s = "in_progress".toList then .Doing
  else if s = "done".toList then .Done
  else .Todo

/-- Embeds Status::next. -/
def Status.next : Status → Status
  | .Todo => .Doing
  | .Doing => .Done
  | .Done => .Todo

/-- Embeds Status::prev. -/
def Status.prev : Status → Status
  | .Todo => .Done
  | .Doing => .Todo
  | .Done => .Doing

/-! ## Actions and keymap (tm-core/src/actions.rs, tm-core/src/keymap.rs) -/

/-- Embeds enum Action of tm-core/src/actions.rs. -/
inductive Action
  | MoveDown
  | MoveUp
  | HalfPageDown
  | HalfPageUp
  | GoTop
  | GoBottom
  | FocusFilter
  | Quit
  | StatusNext
  | StatusPrev
  | SetTodo
  | SetDoing
  | SetDone
deriving DecidableEq

/-- A keymap is a finite token-to-action table.  The Rust code uses a
HashMap with distinct keys; an association list with distinct keys is an
extensionally equivalent model. -/
abbrev Keymap := List (String × Action)

/-- Embeds Keymap::lookup (HashMap::get on the normal table). -/
def Keymap.lookup (m : Keymap) (token : String) : Option Action :=
  (m.find? (fun p => p.1 == token)).map (fun p => p.2)

/-- Embeds default_keymap of tm-core/src/keymap.rs: the fourteen insertions
into the normal table, in source order. -/
def default_keymap : Keymap :=
  [ ("j", .MoveDown)
  , ("Down", .MoveDown)
  , ("k", .MoveUp)
  , ("Up", .MoveUp)
  , ("Ctrl-d", .HalfPageDown)
  , ("Ctrl-u", .HalfPageUp)
  , ("G", .GoBottom)
  , ("/", .FocusFilter)
  , ("q", .Quit)
  , ("x", .StatusNext)
  , ("X", .StatusPrev)
  , ("1", .SetTodo)
  , ("2", .SetDoing)
  , ("3", .SetDone)
  ]

/-! ## Selection movement (tm-ui/src/lib.rs, run_tui action dispatch) -/

/-- Embeds the Action::HalfPageDown branch of run_tui: the jump is
(len.max(1) / 2).max(1) and the result is (selected + jump) capped at
len.saturating_sub(1).  Nat subtraction is saturating, matching Rust. -/
def half_page_down_step (len selected : Nat) : Nat :=
  min (selected + max (max len 1 / 2) 1) (len - 1)

/-- Embeds the Action::HalfPageUp branch of run_tui:
selected.saturating_sub(jump) with the same jump as half_page_down_step. -/
def half_page_up_step (len selected : Nat) : Nat :=
  selected - max (max len 1 / 2) 1

/-! ## Ex-command parser (tm-core/src/ex.rs) -/

/-- Embeds enum StatusSet of tm-core/src/ex.rs. -/
inductive StatusSet
  | Todo
  | Doing
  | Done
  | Next
  | Prev
deriving DecidableEq

/-- Embeds enum ExCommand of tm-core/src/ex.rs. -/
inductive ExCommand
  | New (title : Str) (project : Option Str) (tags : List Str) (due : Option Str)
  | Status (id : Option Str) (set : StatusSet)
  | OpenProject (key : Str)
  | ProjectNew (title : Str) (tags : List Str)
  | ConfigReload
deriving DecidableEq

deriving instance DecidableEq for Except

/-- Embeds StatusSet::from_str.  The Rust error message interpolates the
token; the message is modelled without the interpolation. -/
def StatusSet.from_str (s : Str) : Except String StatusSet :=
  if s = "todo".toList then .ok .Todo
  else if s = "doing".toList ∨ s = "in-progress".toList ∨ s = "in_progress".toList then .ok .Doing
  else if s = "done".toList then .ok .Done
  else if s = "next".toList then .ok .Next
  else if s = "prev".toList then .ok .Prev
  else .error "unknown status"

/-- Embeds the quote-aware tokenizer loop of tokenize in tm-core/src/ex.rs:
a double quote toggles the in-quotes flag and is dropped, a space outside
quotes ends the current token (empty tokens are not emitted), every other
character is appended to the current token. -/
def tokenize_go (in_quotes : Bool) (cur : Str) : Str → List Str
  | [] => if cur = [] then [] else [cur]
  | c :: cs =>
    if c = '"' then tokenize_go (!in_quotes) cur cs
    else if c = ' ' ∧ in_quotes = false then
      (if cur = [] then tokenize_go in_quotes [] cs else cur :: tokenize_go in_quotes [] cs)
    else tokenize_go in_quotes (cur ++ [c]) cs

/-- Embeds tokenize of tm-core/src/ex.rs. -/
def tokenize (s : Str) : List Str := tokenize_go false [] s

/-- Models Rust str::trim on the embedded strings (whitespace stripped from
both ends; the model uses the ASCII whitespace characters, which covers all
inputs the program produces). -/
def trim_str (s : Str) : Str :=
  ((s.dropWhile Char.isWhitespace).reverse.dropWhile Char.isWhitespace).reverse

/-- Literal flag prefix "project:". -/
def proj_flag : Str := "project:".toList

/-- Literal flag prefix "due:". -/
def due_flag : Str := "due:".toList

/-- Literal flag prefix "+". -/
def plus_flag : Str := "+".toList

/-- Embeds the flag loop of the new branch of parse_ex: project: and due:
set their fields (last occurrence wins), +tag pushes a nonempty tag, and a
plain token fills the title if it is still empty. -/
def new_loop : List Str → Str → Option Str → List Str → Option Str →
    Str × Option Str × List Str × Option Str
  | [], title, project, tags, due => (title, project, tags, due)
  | t :: ts, title, project, tags, due =>
    if proj_flag.isPrefixOf t then
      new_loop ts title (some (t.drop proj_flag.length)) tags due
    else if due_flag.isPrefixOf t then
      new_loop ts title project tags (some (t.drop due_flag.length))
    else if plus_flag.isPrefixOf t then
      (if t.drop 1 = [] then new_loop ts title project tags due
       else new_loop ts title project (tags ++ [t.drop 1]) due)
    else if title = [] then new_loop ts t project tags due
    else new_loop ts title project tags due

/-- Embeds the new branch of parse_ex: an initial non-flag token is taken as
the title, the rest go through new_loop, and an empty title is a validation
error. -/
def parse_new (toks : List Str) : Except String ExCommand :=
  let first :=
    match toks with
    | t :: ts =>
      if ¬ proj_flag.isPrefixOf t ∧ ¬ plus_flag.isPrefixOf t ∧ ¬ due_flag.isPrefixOf t then
        (ts, t)
      else (toks, ([] : Str))
    | [] => (([] : List Str), ([] : Str))
  let r := new_loop first.1 first.2 none [] none
  if r.1 = [] then .error ":new requires a title (quoted if it has spaces)"
  else .ok (.New r.1 r.2.1 r.2.2.1 r.2.2.2)

/-- Embeds the status branch of parse_ex: one token is a bare status set,
two or more tokens are an id followed by a status set, zero tokens are a
usage error. -/
def parse_status (toks : List Str) : Except String ExCommand :=
  match toks with
  | [t] => (StatusSet.from_str t).map (fun set => .Status none set)
  | t1 :: t2 :: _ => (StatusSet.from_str t2).map (fun set => .Status (some t1) set)
  | [] => .error "usage: :status [<id>] (todo|doing|done|next|prev)"

/-- Embeds the key-scanning loop of the open branch of parse_ex: every
project: token overwrites the key, so the last one wins. -/
def open_loop : List Str → Option Str → Option Str
  | [], key => key
  | t :: ts, key =>
    open_loop ts (if proj_flag.isPrefixOf t then some (t.drop proj_flag.length) else key)

/-- Embeds the tag loop of the project.new branch of parse_ex. -/
def project_new_loop : List Str → Str → List Str → Str × List Str
  | [], title, tags => (title, tags)
  | t :: ts, title, tags =>
    if plus_flag.isPrefixOf t then
      (if t.drop 1 = [] then project_new_loop ts title tags
       else project_new_loop ts title (tags ++ [t.drop 1]))
    else if title = [] then project_new_loop ts t tags
    else project_new_loop ts title tags

/-- Embeds the project.new branch of parse_ex. -/
def parse_project_new (toks : List Str) : Except String ExCommand :=
  let first :=
    match toks with
    | t :: ts => if ¬ plus_flag.isPrefixOf t then (ts, t) else (toks, ([] : Str))
    | [] => (([] : List Str), ([] : Str))
  let r := project_new_loop first.1 first.2 []
  if r.1 = [] then .error ":project.new requires a title"
  else .ok (.ProjectNew r.1 r.2)

/-- Embeds parse_ex of tm-core/src/ex.rs: trim, reject the empty line,
special-case config.reload on the whole trimmed line, then tokenize and
dispatch on the first token.  On a nonempty trimmed line whose tokenization
is empty the Rust code panics in toks.remove(0); that unreachable-in-practice
case is modelled as an error value. -/
def parse_ex (line : Str) : Except String ExCommand :=
  let l := trim_str line
  if l = [] then .error "empty command"
  else if l = "config.reload".toList then .ok .ConfigReload
  else
    match tokenize l with
    | [] => .error "no tokens"
    | cmd :: toks =>
      if cmd = "new".toList then parse_new toks
      else if cmd = "status".toList then parse_status toks
      else if cmd = "open".toList then
        .ok (.OpenProject ((open_loop toks none).getD []))
      else if cmd = "project.new".toList then parse_project_new toks
      else .error "unknown command"

/-! ## Frontmatter record and envelope (tm-core/src/lib.rs) -/

/-- Embeds struct Frontmatter of tm-core/src/lib.rs (the task metadata
block). -/
structure Frontmatter where
  id : Str
  key : Str
  title : Str
  status : Str
  project : Str
  tags : List Str
  priority : Str
  due : Option Str
  created : Option Str
  updated : Option Str
  parent : Option Str
deriving DecidableEq

/-- Embeds struct Task of tm-core/src/lib.rs (the listing projection of a
frontmatter record). -/
structure Task where
  id : Str
  title : Str
  status : Str
  project : Str
  updated : Str
deriving DecidableEq

/-- Value of an optional metadata field in the YAML document: serde_yaml
writes null for None and the plain scalar for Some. -/
def opt_val : Option Str → Str
  | none => "null".toList
  | some s => s

/-- Lines of the tags field: serde_yaml writes "tags: []" for the empty
list and a "- item" line per element otherwise. -/
def tags_lines (ts : List Str) : List Str :=
  if ts = [] then ["tags: []".toList]
  else "tags:".toList :: ts.map (fun t => '-' :: ' ' :: t)

/-- Models serde_yaml::to_string on a Frontmatter with plain scalar values:
one "field: value" line per field in declaration order. -/
def yaml_lines (fm : Frontmatter) : List Str :=
  ("id: ".toList ++ fm.id) ::
  ("key: ".toList ++ fm.key) ::
  ("title: ".toList ++ fm.title) ::
  ("status: ".toList ++ fm.status) ::
  ("project: ".toList ++ fm.project) ::
  (tags_lines fm.tags ++
    (("priority: ".toList ++ fm.priority) ::
     ("due: ".toList ++ opt_val fm.due) ::
     ("created: ".toList ++ opt_val fm.created) ::
     ("updated: ".toList ++ opt_val fm.updated) ::
     ("parent: ".toList ++ opt_val fm.parent) :: []))

/-- Joins lines, terminating every line with a newline (the shape of the
serde_yaml document: it always ends in a newline). -/
def join_lines : List Str → Str
  | [] => []
  | l :: ls => l ++ '\n' :: join_lines ls

/-- Joins lines with newline separators and no trailing newline: the shape
of the frontmatter text captured by the lazy regex group, which stops just
before the newline that precedes the closing delimiter. -/
def fm_join : List Str → Str
  | [] => []
  | [l] => l
  | l :: ls => l ++ '\n' :: fm_join ls

/-- Finds the first occurrence of the four-character pattern newline dash
dash dash, returning the text before it and the text after it.  This is the
search performed by the lazy regex (?s)^---\n(.*?)\n--- once the leading
delimiter has been consumed. -/
def split_delim : Str → Option (Str × Str)
  | [] => none
  | c :: cs =>
    if (c :: cs).take 4 = ['\n', '-', '-', '-'] then some ([], cs.drop 3)
    else (split_delim cs).map (fun p => (c :: p.1, p.2))

/-- Consumes the optional newline after the closing delimiter line, as the
regex fragment backslash-n-question does. -/
def drop_nl (s : Str) : Str :=
  match s with
  | c :: rest => if c = '\n' then rest else s
  | [] => []

/-- Splits the frontmatter text into its lines (inverse of fm_join on
newline-free lines). -/
def split_nl : Str → List Str
  | [] => [[]]
  | c :: rest =>
    if c = '\n' then [] :: split_nl rest
    else (c :: (split_nl rest).headD []) :: (split_nl rest).tail

/-- Reads one "field: value" line: the fixed field prefix must start the
line and the value is the remainder of the line. -/
def peel_kv (pre : Str) : List Str → Option (Str × List Str)
  | [] => none
  | l :: rest => if pre.isPrefixOf l then some (l.drop pre.length, rest) else none

/-- Reads one optional "field: value" line, mapping the null scalar back to
None. -/
def peel_opt_kv (pre : Str) (ls : List Str) : Option (Option Str × List Str) :=
  (peel_kv pre ls).map
    (fun p => (if p.1 = "null".toList then none else some p.1, p.2))

/-- Reads the run of "- item" lines after a "tags:" header. -/
def peel_items : List Str → List Str × List Str
  | [] => ([], [])
  | l :: rest =>
    if ("- ".toList).isPrefixOf l then
      ((l.drop 2) :: (peel_items rest).1, (peel_items rest).2)
    else ([], l :: rest)

/-- Reads the tags field: either the empty-list scalar line or a header line
followed by item lines. -/
def peel_tags : List Str → Option (List Str × List Str)
  | [] => none
  | l :: rest =>
    if l = "tags: []".toList then some ([], rest)
    else if l = "tags:".toList then some (peel_items rest)
    else none

/-- Models serde_yaml::from_str for the Frontmatter documents this program
writes: the fields in declaration order, each on its own line, with the
tags list in block form.  A document not of this shape is a decode error
(None). -/
def parse_frontmatter (ls : List Str) : Option Frontmatter :=
  (peel_kv ("id: ".toList) ls).bind fun p1 =>
  (peel_kv ("key: ".toList) p1.2).bind fun p2 =>
  (peel_kv ("title: ".toList) p2.2).bind fun p3 =>
  (peel_kv ("status: ".toList) p3.2).bind fun p4 =>
  (peel_kv ("project: ".toList) p4.2).bind fun p5 =>
  (peel_tags p5.2).bind fun p6 =>
  (peel_kv ("priority: ".toList) p6.2).bind fun p7 =>
  (peel_opt_kv ("due: ".toList) p7.2).bind fun p8 =>
  (peel_opt_kv ("created: ".toList) p8.2).bind fun p9 =>
  (peel_opt_kv ("updated: ".toList) p9.2).bind fun p10 =>
  (peel_opt_kv ("parent: ".toList) p10.2).bind fun p11 =>
  if p11.2 = [] then
    some ⟨p1.1, p2.1, p3.1, p4.1, p5.1, p6.1, p7.1, p8.1, p9.1, p10.1, p11.1⟩
  else none

/-- Encodes a record file: the format string "---\n" yaml "---\n" body used
by every metadata mutation in tm-core/src/lib.rs. -/
def encode_record (fm : Frontmatter) (body : Str) : Str :=
  '-' :: '-' :: '-' :: '\n' ::
    (join_lines (yaml_lines fm) ++ ('-' :: '-' :: '-' :: '\n' :: body))

/-- Embeds extract_frontmatter_and_body of tm-core/src/lib.rs: the regex
(?s)^---\n(.*?)\n---\n?(.*)$ followed by the YAML decode of the first
capture group. -/
def extract_frontmatter_and_body (content : Str) : Option (Frontmatter × Str) :=
  match content with
  | '-' :: '-' :: '-' :: '\n' :: rest =>
    (split_delim rest).bind fun p =>
      (parse_frontmatter (split_nl p.1)).map fun fm => (fm, drop_nl p.2)
  | _ => none

/-- Embeds extract_frontmatter of tm-core/src/lib.rs: the same search
without the body capture. -/
def extract_frontmatter (content : Str) : Option Frontmatter :=
  match content with
  | '-' :: '-' :: '-' :: '\n' :: rest =>
    (split_delim rest).bind fun p => parse_frontmatter (split_nl p.1)
  | _ => none

/-- Embeds the struct construction inside Task::from_md_file. -/
def fm_to_task (fm : Frontmatter) : Task :=
  ⟨fm.id, fm.title, fm.status, fm.project, fm.updated.getD []⟩

/-- Embeds Task::from_md_file on the content of the file (the read itself
is abstracted away): extract the frontmatter and project it to a Task. -/
def Task.from_md_file (content : Str) : Option Task :=
  (extract_frontmatter content).map fm_to_task

/-! ## Listing scan and store mutations (tm-core/src/lib.rs, impl Vault) -/

/-- Lexicographic comparison on character lists by code point, modelling the
byte comparison Ord of Rust String for the sort comparators. -/
def lex_le : Str → Str → Bool
  | [], _ => true
  | _ :: _, [] => false
  | a :: as_, b :: bs => if a = b then lex_le as_ bs else decide (a.val < b.val)

/-- Insertion step of the updated-descending sort. -/
def insert_by_updated (t : Task) : List Task → List Task
  | [] => [t]
  | u :: us =>
    if lex_le u.updated t.updated then t :: u :: us else u :: insert_by_updated t us

/-- Models out.sort_by(|a, b| b.updated.cmp(&a.updated)): a sort of the
scanned tasks by updated timestamp, descending.  (Only the multiset of
elements and the length matter to the claims; stability differences from the
Rust sort are irrelevant here.) -/
def sort_by_updated : List Task → List Task
  | [] => []
  | t :: ts => insert_by_updated t (sort_by_updated ts)

/-- Embeds Vault::list_tasks of tm-core/src/lib.rs, given the contents of
the .md files found under the tasks subtree: every file that decodes is
kept, a file whose decode fails is skipped, and the result is sorted by
updated descending.  The _project parameter is present and ignored exactly
as in the source (fn list_tasks(&self, _project: Option<&str>)). -/
def list_tasks (files : List Str) (_project : Option Str) : List Task :=
  sort_by_updated (files.filterMap Task.from_md_file)

/-- Models slug::slugify (external slug crate) on ASCII text: alphanumeric
characters are lowercased, every other character becomes a dash, runs of
dashes are collapsed, and leading and trailing dashes are removed. -/
def lower_ascii (c : Char) : Char :=
  match c with
  | 'A' => 'a' | 'B' => 'b' | 'C' => 'c' | 'D' => 'd' | 'E' => 'e' | 'F' => 'f'
  | 'G' => 'g' | 'H' => 'h' | 'I' => 'i' | 'J' => 'j' | 'K' => 'k' | 'L' => 'l'
  | 'M' => 'm' | 'N' => 'n' | 'O' => 'o' | 'P' => 'p' | 'Q' => 'q' | 'R' => 'r'
  | 'S' => 's' | 'T' => 't' | 'U' => 'u' | 'V' => 'v' | 'W' => 'w' | 'X' => 'x'
  | 'Y' => 'y' | 'Z' => 'z'
  | c => c

/-- Alphanumeric ASCII test for the slug model. -/
def is_alnum (c : Char) : Bool :=
  ('a' ≤ c ∧ c ≤ 'z') ∨ ('A' ≤ c ∧ c ≤ 'Z') ∨ ('0' ≤ c ∧ c ≤ '9')

/-- Dash-collapsing pass of the slug model. -/
def collapse_dashes : Str → Str
  | [] => []
  | [c] => [c]
  | a :: b :: rest =>
    if a = '-' ∧ b = '-' then collapse_dashes (b :: rest)
    else a :: collapse_dashes (b :: rest)

/-- Models slug::slugify (see lower_ascii). -/
def slugify (s : Str) : Str :=
  (((collapse_dashes (s.map (fun c => if is_alnum c then lower_ascii c else '-'))).dropWhile
      (fun c => c = '-')).reverse.dropWhile (fun c => c = '-')).reverse

/-- Embeds the Frontmatter built by Vault::create_task: fresh id and
timestamp are passed in (the Rust code draws them from Ulid::new and
OffsetDateTime::now_utc), the key is the slug of the title, status is todo,
priority is none, created and updated are both now.  There is no check on
the title. -/
def create_task_frontmatter (title project : Str) (due : Option Str)
    (tags : List Str) (id now : Str) : Frontmatter :=
  { id := id
  , key := slugify title
  , title := title
  , status := "todo".toList
  , project := project
  , tags := tags
  , priority := "none".toList
  , due := due
  , created := some now
  , updated := some now
  , parent := none }

/-- Embeds Frontmatter::to_markdown with the separator "---\n": the format
string sep yaml sep newline, which is the file content create_task writes. -/
def Frontmatter.to_markdown (fm : Frontmatter) : Str :=
  "---\n".toList ++ join_lines (yaml_lines fm) ++ "---\n".toList ++ ['\n']

/-- Field update performed by Vault::set_status. -/
def fm_set_status (fm : Frontmatter) (status : Status) (now : Str) : Frontmatter :=
  { fm with status := status.as_str, updated := some now }

/-- Embeds Vault::set_status on the content of the located task file:
decode, overwrite status and updated, re-encode with the body unchanged. -/
def set_status (content : Str) (status : Status) (now : Str) : Option Str :=
  (extract_frontmatter_and_body content).map fun p =>
    encode_record (fm_set_status p.1 status now) p.2

/-- Field update performed by Vault::set_due. -/
def fm_set_due (fm : Frontmatter) (due now : Str) : Frontmatter :=
  { fm with due := some due, updated := some now }

/-- Embeds Vault::set_due on the content of the located task file. -/
def set_due (content : Str) (due now : Str) : Option Str :=
  (extract_frontmatter_and_body content).map fun p =>
    encode_record (fm_set_due p.1 due now) p.2

/-- Embeds the tag-list computation of Vault::set_tags_csv: split on commas
and spaces, trim each piece, drop empty pieces, strip leading plus signs. -/
def split_comma_space : Str → List Str
  | [] => [[]]
  | c :: rest =>
    if c = ',' ∨ c = ' ' then [] :: split_comma_space rest
    else (c :: (split_comma_space rest).headD []) :: (split_comma_space rest).tail

/-- Embeds the csv-to-tags computation of Vault::set_tags_csv. -/
def csv_tags (csv : Str) : List Str :=
  (((split_comma_space csv).map trim_str).filter (fun t => ¬ t.isEmpty)).map
    (fun t => t.dropWhile (fun c => c = '+'))

/-- Field update performed by Vault::set_tags_csv. -/
def fm_set_tags (fm : Frontmatter) (csv now : Str) : Frontmatter :=
  { fm with tags := csv_tags csv, updated := some now }

/-- Embeds Vault::set_tags_csv on the content of the located task file. -/
def set_tags_csv (content : Str) (csv now : Str) : Option Str :=
  (extract_frontmatter_and_body content).map fun p =>
    encode_record (fm_set_tags p.1 csv now) p.2

/-- Field update performed by Vault::rename_title: new title, key
recomputed as its slug, updated refreshed. -/
def fm_rename (fm : Frontmatter) (new_title now : Str) : Frontmatter :=
  { fm with title := new_title, key := slugify new_title, updated := some now }

/-- Embeds the metadata rewrite of Vault::rename_title on the content of
the located task file (the best-effort file rename that follows touches only
the path, not the content). -/
def rename_title (content : Str) (new_title now : Str) : Option Str :=
  (extract_frontmatter_and_body content).map fun p =>
    encode_record (fm_rename p.1 new_title now) p.2

/-! ## Plain-scalar side conditions for the YAML round trip -/

/-- A plain scalar value: no newline, so it fits on its metadata line. -/
def PlainStr (s : Str) : Prop := '\n' ∉ s

/-- A plain optional value: additionally not the literal null scalar, which
serde_yaml would quote. -/
def PlainOptStr : Option Str → Prop
  | none => True
  | some s => PlainStr s ∧ s ≠ "null".toList

/-- A frontmatter record all of whose field values are plain scalars, the
shape this program always writes. -/
def PlainFrontmatter (fm : Frontmatter) : Prop :=
  PlainStr fm.id ∧ PlainStr fm.key ∧ PlainStr fm.title ∧ PlainStr fm.status ∧
  PlainStr fm.project ∧ (∀ t ∈ fm.tags, PlainStr t) ∧ PlainStr fm.priority ∧
  PlainOptStr fm.due ∧ PlainOptStr fm.created ∧ PlainOptStr fm.updated ∧
  PlainOptStr fm.parent

instance : DecidablePred PlainStr := fun s =>
  inferInstanceAs (Decidable ('\n' ∉ s))

instance : DecidablePred PlainOptStr := fun o =>
  match o with
  | none => inferInstanceAs (Decidable True)
  | some _ => inferInstanceAs (Decidable (_ ∧ _))

instance (fm : Frontmatter) : Decidable (PlainFrontmatter fm) :=
  inferInstanceAs (Decidable (_ ∧ _))

/-- A well-formed metadata line: it contains no newline and does not start
with three dashes, so it cannot spawn a spurious closing delimiter.  Every
line the YAML model emits satisfies this. -/
def LineOk (l : Str) : Prop := '\n' ∉ l ∧ l.take 3 ≠ ['-', '-', '-']

instance (l : Str) : Decidable (LineOk l) := by
  unfold LineOk
  infer_instance

/-- Sample record used by the claim about the ignored project filter: a
task filed under project home. -/
def sample_home_task : Frontmatter :=
  { id := "01HOME".toList
  , key := "water-plants".toList
  , title := "Water plants".toList
  , status := "todo".toList
  , project := "home".toList
  , tags := []
  , priority := "none".toList
  , due := none
  , created := some "2025-01-01T00:00:00Z".toList
  , updated := some "2025-01-01T00:00:00Z".toList
  , parent := none }

/-- Sample record used by the round-trip witness. -/
def sample_record : Frontmatter :=
  { id := "01RT".toList
  , key := "buy-milk".toList
  , title := "Buy milk".toList
  , status := "doing".toList
  , project := "home".toList
  , tags := ["errand".toList, "dairy".toList]
  , priority := "none".toList
  , due := some "2025-09-01".toList
  , created := some "2025-01-01T00:00:00Z".toList
  , updated := some "2025-01-02T12:00:00Z".toList
  , parent := none }

/-- Sample record used by the corrupt-file listing witness. -/
def sample_scan_task : Frontmatter :=
  { id := "01SCAN".toList
  , key := "ship-report".toList
  , title := "Ship report".toList
  , status := "doing".toList
  , project := "work".toList
  , tags := []
  , priority := "none".toList
  , due := none
  , created := some "2025-02-01T00:00:00Z".toList
  , updated := some "2025-02-03T00:00:00Z".toList
  , parent := none }

/-- Record produced by create_task when handed the empty title (used as the
failing input of the empty-title claim). -/
def sample_created_empty : Frontmatter :=
  create_task_frontmatter [] ("inbox".toList) none []
    ("01AN4Z07BY79KA1307SR9X4MV3".toList) ("2025-03-01T10:00:00Z".toList)

/-! ## Envelope lemmas: the delimiter search on encoded records -/

theorem split_delim_nil : split_delim [] = none := rfl

theorem split_delim_cons (c : Char) (cs : Str) :
    split_delim (c :: cs) =
      if (c :: cs).take 4 = ['\n', '-', '-', '-'] then some ([], cs.drop 3)
      else (split_delim cs).map (fun p => (c :: p.1, p.2)) := by
  rw [split_delim]

theorem split_delim_skip_line (l rest : Str) (h : '\n' ∉ l) :
    split_delim (l ++ rest) = (split_delim rest).map (fun p => (l ++ p.1, p.2)) := by
  induction l with
  | nil => cases h : split_delim rest <;> simp [h]
  | cons c cs ih =>
    have hc : c ≠ '\n' := fun hEq => h (hEq ▸ List.mem_cons_self c cs)
    have hcs : '\n' ∉ cs := fun hm => h (List.mem_cons_of_mem c hm)
    rw [List.cons_append, split_delim_cons, if_neg, ih hcs]
    · cases split_delim rest <;> simp
    · simp only [List.take_succ_cons, List.cons.injEq]
      exact fun hEq => hc hEq.1

theorem split_delim_at_delim (zs : Str) :
    split_delim ('\n' :: '-' :: '-' :: '-' :: zs) = some ([], zs) := rfl

theorem take_three_of_append_ne (l rest : Str) (h : LineOk l) :
    (l ++ '\n' :: rest).take 3 ≠ ['-', '-', '-'] := by
  match l with
  | [] => simp
  | [a] =>
    intro hEq
    simp only [List.cons_append, List.nil_append, List.take_succ_cons, List.cons.injEq] at hEq
    exact absurd hEq.2.1 (by decide)
  | [a, b] =>
    intro hEq
    simp only [List.cons_append, List.nil_append, List.take_succ_cons, List.cons.injEq] at hEq
    exact absurd hEq.2.2.1 (by decide)
  | a :: b :: c :: t =>
    intro hEq
    apply h.2
    simp only [List.cons_append, List.take_succ_cons, List.cons.injEq] at hEq ⊢
    exact ⟨hEq.1, hEq.2.1, hEq.2.2.1, rfl⟩

theorem split_delim_joined (L : List Str) (l body : Str)
    (hl : LineOk l) (hL : ∀ x ∈ L, LineOk x) :
    split_delim (join_lines (l :: L) ++ ('-' :: '-' :: '-' :: '\n' :: body)) =
      some (fm_join (l :: L), '\n' :: body) := by
  induction L generalizing l with
  | nil =>
    have h1 : join_lines [l] ++ ('-' :: '-' :: '-' :: '\n' :: body)
        = l ++ ('\n' :: '-' :: '-' :: '-' :: '\n' :: body) := by
      simp [join_lines]
    rw [h1, split_delim_skip_line _ _ hl.1, split_delim_at_delim]
    simp [fm_join]
  | cons l2 L2 ih =>
    have h1 : join_lines (l :: l2 :: L2) ++ ('-' :: '-' :: '-' :: '\n' :: body)
        = l ++ ('\n' :: (join_lines (l2 :: L2) ++ ('-' :: '-' :: '-' :: '\n' :: body))) := by
      simp [join_lines]
    have hcond : ¬ (('\n' :: (join_lines (l2 :: L2) ++ ('-' :: '-' :: '-' :: '\n' :: body))).take 4
        = ['\n', '-', '-', '-']) := by
      have h2 : join_lines (l2 :: L2) ++ ('-' :: '-' :: '-' :: '\n' :: body)
          = l2 ++ ('\n' :: (join_lines L2 ++ ('-' :: '-' :: '-' :: '\n' :: body))) := by
        simp [join_lines]
      rw [h2, List.take_succ_cons]
      intro hEq
      injection hEq with hHead hTail
      exact take_three_of_append_ne l2 _ (hL l2 (List.mem_cons_self _ _)) hTail
    rw [h1, split_delim_skip_line _ _ hl.1, split_delim_cons, if_neg hcond,
      ih l2 (hL l2 (List.mem_cons_self _ _)) (fun x hx => hL x (List.mem_cons_of_mem _ hx))]
    simp [fm_join]

/-! ## Line splitting: split_nl inverts fm_join on newline-free lines -/

theorem split_nl_ne_nil (s : Str) : split_nl s ≠ [] := by
  cases s with
  | nil => simp [split_nl]
  | cons c rest =>
    simp only [split_nl]
    split <;> simp

theorem split_nl_no_nl (l : Str) (h : '\n' ∉ l) : split_nl l = [l] := by
  induction l with
  | nil => rfl
  | cons c cs ih =>
    have hc : c ≠ '\n' := fun hEq => h (hEq ▸ List.mem_cons_self c cs)
    have hcs : '\n' ∉ cs := fun hm => h (List.mem_cons_of_mem c hm)
    simp [split_nl, hc, ih hcs]

theorem split_nl_append (l rest : Str) (h : '\n' ∉ l) :
    split_nl (l ++ '\n' :: rest) = l :: split_nl rest := by
  induction l with
  | nil => simp [split_nl]
  | cons c cs ih =>
    have hc : c ≠ '\n' := fun hEq => h (hEq ▸ List.mem_cons_self c cs)
    have hcs : '\n' ∉ cs := fun hm => h (List.mem_cons_of_mem c hm)
    simp [split_nl, hc, ih hcs]

theorem split_nl_fm_join (L : List Str) (l : Str) (h : ∀ x ∈ l :: L, '\n' ∉ x) :
    split_nl (fm_join (l :: L)) = l :: L := by
  induction L generalizing l with
  | nil => exact split_nl_no_nl l (h l (List.mem_cons_self _ _))
  | cons l2 L2 ih =>
    have hstep : fm_join (l :: l2 :: L2) = l ++ '\n' :: fm_join (l2 :: L2) := rfl
    rw [hstep, split_nl_append _ _ (h l (List.mem_cons_self _ _)),
      ih l2 (fun x hx => h x (List.mem_cons_of_mem _ hx))]

/-! ## Field peeling on the emitted YAML lines -/

theorem peel_kv_cons (pre v : Str) (rest : List Str) :
    peel_kv pre ((pre ++ v) :: rest) = some (v, rest) := by
  have hpre : pre.isPrefixOf (pre ++ v) = true :=
    List.isPrefixOf_iff_prefix.mpr (List.prefix_append pre v)
  simp [peel_kv, hpre, List.drop_left]

theorem peel_opt_kv_cons (pre : Str) (o : Option Str) (rest : List Str)
    (ho : PlainOptStr o) :
    peel_opt_kv pre ((pre ++ opt_val o) :: rest) = some (o, rest) := by
  cases o with
  | none => simp [peel_opt_kv, peel_kv_cons, opt_val]
  | some s =>
    simp [peel_opt_kv, peel_kv_cons, opt_val]
    exact ho.2

theorem peel_items_spec (ts : List Str) (l : Str) (rest : List Str)
    (h : ("- ".toList).isPrefixOf l = false) :
    peel_items (ts.map (fun t => '-' :: ' ' :: t) ++ l :: rest) = (ts, l :: rest) := by
  have h' : ¬ ((['-', ' '] : Str) <+: l) := fun hp => by
    simp [List.isPrefixOf_iff_prefix.mpr hp] at h
  induction ts with
  | nil => simp [peel_items, h']
  | cons t ts ih =>
    have hp : ("- ".toList).isPrefixOf ('-' :: ' ' :: t) = true := by
      simp [List.isPrefixOf]
    simp only [List.map_cons, List.cons_append, peel_items, hp, if_pos, ih]
    simp [ih]

theorem peel_tags_spec (ts : List Str) (l : Str) (rest : List Str)
    (h : ("- ".toList).isPrefixOf l = false) :
    peel_tags (tags_lines ts ++ l :: rest) = some (ts, l :: rest) := by
  cases ts with
  | nil => simp [tags_lines, peel_tags]
  | cons t ts =>
    have hne : ("tags:".toList : Str) ≠ "tags: []".toList := by decide
    have h1 : tags_lines (t :: ts) ++ l :: rest
        = "tags:".toList :: ((t :: ts).map (fun x => '-' :: ' ' :: x) ++ l :: rest) := by
      simp [tags_lines]
    rw [h1]
    simp only [peel_tags]
    rw [if_neg hne, if_pos trivial, peel_items_spec _ _ _ h]

theorem parse_frontmatter_yaml (fm : Frontmatter) (h : PlainFrontmatter fm) :
    parse_frontmatter (yaml_lines fm) = some fm := by
  obtain ⟨hid, hkey, htitle, hstatus, hproject, htags, hpriority, hdue, hcreated,
    hupdated, hparent⟩ := h
  obtain ⟨id, key, title, status, project, tags, priority, due, created, updated, parent⟩ := fm
  have hpn : ("- ".toList).isPrefixOf ("priority: ".toList ++ priority) = false := rfl
  simp only [yaml_lines, parse_frontmatter, peel_kv_cons, Option.some_bind,
    peel_tags_spec _ _ _ hpn, peel_opt_kv_cons _ _ _ hdue, peel_opt_kv_cons _ _ _ hcreated,
    peel_opt_kv_cons _ _ _ hupdated, peel_opt_kv_cons _ _ _ hparent]
  rfl

/-! ## Every emitted metadata line is a well-formed line -/

theorem line_ok_of_take (pre v : Str) (h3 : (pre ++ v).take 3 ≠ ['-', '-', '-'])
    (hpre : '\n' ∉ pre) (hv : '\n' ∉ v) : LineOk (pre ++ v) :=
  ⟨fun hm => (List.mem_append.mp hm).elim (fun hh => hpre hh) (fun hh => hv hh), h3⟩

theorem line_ok_item (t : Str) (ht : '\n' ∉ t) : LineOk ('-' :: ' ' :: t) := by
  constructor
  · intro hm
    rcases List.mem_cons.mp hm with h1 | hm2
    · exact absurd h1 (by decide)
    rcases List.mem_cons.mp hm2 with h2 | hm3
    · exact absurd h2 (by decide)
    · exact ht hm3
  · intro hEq
    rw [show ('-' :: ' ' :: t).take 3 = '-' :: ' ' :: t.take 1 from rfl] at hEq
    injection hEq with hA hB
    injection hB with h3 hC
    exact absurd h3 (by decide)

theorem opt_val_plain (o : Option Str) (ho : PlainOptStr o) : '\n' ∉ opt_val o := by
  cases o with
  | none => decide
  | some s => exact ho.1

theorem tags_lines_ok (ts : List Str) (hts : ∀ t ∈ ts, PlainStr t) :
    ∀ l ∈ tags_lines ts, LineOk l := by
  intro l hl
  by_cases hE : ts = []
  · subst hE
    rw [tags_lines, if_pos rfl, List.mem_singleton] at hl
    subst hl
    decide
  · rw [tags_lines, if_neg hE] at hl
    rcases List.mem_cons.mp hl with rfl | hmap
    · decide
    · obtain ⟨t, htmem, rfl⟩ := List.mem_map.mp hmap
      exact line_ok_item t (hts t htmem)

theorem yaml_lines_ok (fm : Frontmatter) (h : PlainFrontmatter fm) :
    ∀ l ∈ yaml_lines fm, LineOk l := by
  obtain ⟨hid, hkey, htitle, hstatus, hproject, htags, hpriority, hdue, hcreated,
    hupdated, hparent⟩ := h
  intro l hl
  simp only [yaml_lines, List.mem_cons, List.mem_append] at hl
  rcases hl with rfl | rfl | rfl | rfl | rfl | hl'
  · exact line_ok_of_take _ _ (by rw [show ("id: ".toList ++ fm.id).take 3
      = ['i', 'd', ':'] from rfl]; decide) (by decide) hid
  · exact line_ok_of_take _ _ (by rw [show ("key: ".toList ++ fm.key).take 3
      = ['k', 'e', 'y'] from rfl]; decide) (by decide) hkey
  · exact line_ok_of_take _ _ (by rw [show ("title: ".toList ++ fm.title).take 3
      = ['t', 'i', 't'] from rfl]; decide) (by decide) htitle
  · exact line_ok_of_take _ _ (by rw [show ("status: ".toList ++ fm.status).take 3
      = ['s', 't', 'a'] from rfl]; decide) (by decide) hstatus
  · exact line_ok_of_take _ _ (by rw [show ("project: ".toList ++ fm.project).take 3
      = ['p', 'r', 'o'] from rfl]; decide) (by decide) hproject
  rcases hl' with htag | rfl | rfl | rfl | rfl | rfl | hF
  · exact tags_lines_ok fm.tags htags l htag
  · exact line_ok_of_take _ _ (by rw [show ("priority: ".toList ++ fm.priority).take 3
      = ['p', 'r', 'i'] from rfl]; decide) (by decide) hpriority
  · exact line_ok_of_take _ _ (by rw [show ("due: ".toList ++ opt_val fm.due).take 3
      = ['d', 'u', 'e'] from rfl]; decide) (by decide) (opt_val_plain _ hdue)
  · exact line_ok_of_take _ _ (by rw [show ("created: ".toList ++ opt_val fm.created).take 3
      = ['c', 'r', 'e'] from rfl]; decide) (by decide) (opt_val_plain _ hcreated)
  · exact line_ok_of_take _ _ (by rw [show ("updated: ".toList ++ opt_val fm.updated).take 3
      = ['u', 'p', 'd'] from rfl]; decide) (by decide) (opt_val_plain _ hupdated)
  · exact line_ok_of_take _ _ (by rw [show ("parent: ".toList ++ opt_val fm.parent).take 3
      = ['p', 'a', 'r'] from rfl]; decide) (by decide) (opt_val_plain _ hparent)
  · exact absurd hF (List.not_mem_nil l)

/-! ## The round trip on encoded records -/

theorem decode_encode (fm : Frontmatter) (body : Str) (h : PlainFrontmatter fm) :
    extract_frontmatter_and_body (encode_record fm body) = some (fm, body) := by
  obtain ⟨l, L, hL⟩ : ∃ l L, yaml_lines fm = l :: L := ⟨_, _, rfl⟩
  have hok : ∀ x ∈ l :: L, LineOk x := hL ▸ yaml_lines_ok fm h
  have hred : extract_frontmatter_and_body (encode_record fm body)
      = (split_delim (join_lines (yaml_lines fm) ++ ('-' :: '-' :: '-' :: '\n' :: body))).bind
          (fun p => (parse_frontmatter (split_nl p.1)).map fun fm2 => (fm2, drop_nl p.2)) := rfl
  rw [hred, hL, split_delim_joined L l body (hok l (List.mem_cons_self _ _))
    (fun x hx => hok x (List.mem_cons_of_mem _ hx))]
  rw [Option.some_bind, split_nl_fm_join L l (fun x hx => (hok x hx).1), ← hL,
    parse_frontmatter_yaml fm h]
  simp [drop_nl]

/-! ## Listing lengths -/

theorem insert_by_updated_length (t : Task) (l : List Task) :
    (insert_by_updated t l).length = l.length + 1 := by
  induction l with
  | nil => rfl
  | cons u us ih =>
    rw [insert_by_updated]
    split
    · simp
    · simp [ih]

theorem sort_by_updated_length (l : List Task) :
    (sort_by_updated l).length = l.length := by
  induction l with
  | nil => rfl
  | cons t ts ih => simp [sort_by_updated, insert_by_updated_length, ih]

theorem filterMap_length_of_isSome {α β : Type} (f : α → Option β) (l : List α)
    (h : ∀ a ∈ l, (f a).isSome) : (l.filterMap f).length = l.length := by
  induction l with
  | nil => rfl
  | cons a t ih =>
    simp only [List.filterMap_cons]
    cases hf : f a with
    | none => exact absurd (h a (List.mem_cons_self _ _)) (by simp [hf])
    | some b =>
      simp [List.length_cons, ih fun x hx => h x (List.mem_cons_of_mem _ hx)]

/-! ## Plainness of the values the mutations write -/

theorem status_as_str_plain (st : Status) : PlainStr st.as_str := by
  cases st <;> decide

theorem trim_str_subset (s : Str) : ∀ c ∈ trim_str s, c ∈ s := by
  intro c hc
  unfold trim_str at hc
  rw [List.mem_reverse] at hc
  have h1 := (List.dropWhile_sublist _).subset hc
  rw [List.mem_reverse] at h1
  exact (List.dropWhile_sublist _).subset h1

theorem split_comma_space_ne_nil (s : Str) : split_comma_space s ≠ [] := by
  cases s with
  | nil => simp [split_comma_space]
  | cons c rest =>
    simp only [split_comma_space]
    split <;> simp

theorem split_comma_space_subset (s : Str) :
    ∀ p ∈ split_comma_space s, ∀ c ∈ p, c ∈ s := by
  induction s with
  | nil =>
    intro p hp c hc
    simp only [split_comma_space, List.mem_singleton] at hp
    subst hp
    simp at hc
  | cons a rest ih =>
    intro p hp c hc
    obtain ⟨h0, t0, h0eq⟩ : ∃ h0 t0, split_comma_space rest = h0 :: t0 := by
      cases hE : split_comma_space rest with
      | nil => exact absurd hE (split_comma_space_ne_nil rest)
      | cons x xs => exact ⟨x, xs, rfl⟩
    simp only [split_comma_space] at hp
    by_cases ha : a = ',' ∨ a = ' '
    · rw [if_pos ha] at hp
      rcases List.mem_cons.mp hp with rfl | hp2
      · simp at hc
      · exact List.mem_cons_of_mem _ (ih p hp2 c hc)
    · rw [if_neg ha, h0eq] at hp
      simp only [List.headD_cons, List.tail_cons] at hp
      rcases List.mem_cons.mp hp with rfl | hp2
      · rcases List.mem_cons.mp hc with rfl | hc2
        · exact List.mem_cons_self _ _
        · exact List.mem_cons_of_mem _
            (ih h0 (h0eq ▸ List.mem_cons_self _ _) c hc2)
      · exact List.mem_cons_of_mem _
          (ih p (h0eq ▸ List.mem_cons_of_mem _ hp2) c hc)

theorem csv_tags_plain (csv : Str) (h : '\n' ∉ csv) :
    ∀ t ∈ csv_tags csv, PlainStr t := by
  intro t ht
  unfold csv_tags at ht
  obtain ⟨u, hu, rfl⟩ := List.mem_map.mp ht
  intro hnl
  have h1 : '\n' ∈ u := (List.dropWhile_sublist _).subset hnl
  have hu2 := List.mem_of_mem_filter hu
  obtain ⟨w, hw, rfl⟩ := List.mem_map.mp hu2
  have h2 : '\n' ∈ w := trim_str_subset w '\n' h1
  exact h (split_comma_space_subset csv w hw '\n' h2)

theorem collapse_dashes_subset (l : Str) : ∀ c ∈ collapse_dashes l, c ∈ l := by
  induction l with
  | nil => simp [collapse_dashes]
  | cons a rest ih =>
    cases rest with
    | nil => simp [collapse_dashes]
    | cons b t =>
      intro c hc
      simp only [collapse_dashes] at hc
      by_cases hab : a = '-' ∧ b = '-'
      · rw [if_pos hab] at hc
        exact List.mem_cons_of_mem _ (ih c hc)
      · rw [if_neg hab] at hc
        rcases List.mem_cons.mp hc with rfl | h2
        · exact List.mem_cons_self _ _
        · exact List.mem_cons_of_mem _ (ih c h2)

theorem lower_ascii_cases (c : Char) :
    lower_ascii c = c ∨ lower_ascii c ∈ "abcdefghijklmnopqrstuvwxyz".toList := by
  unfold lower_ascii
  split <;> first | exact Or.inl rfl | exact Or.inr (by decide)

theorem slugify_plain (s : Str) : PlainStr (slugify s) := by
  intro hnl
  unfold slugify at hnl
  rw [List.mem_reverse] at hnl
  have h1 := (List.dropWhile_sublist _).subset hnl
  rw [List.mem_reverse] at h1
  have h2 := (List.dropWhile_sublist _).subset h1
  have h3 := collapse_dashes_subset _ '\n' h2
  obtain ⟨x, hx, hfx⟩ := List.mem_map.mp h3
  by_cases hax : is_alnum x = true
  · rw [if_pos hax] at hfx
    rcases lower_ascii_cases x with hcase | hcase
    · rw [hcase] at hfx
      subst hfx
      exact absurd hax (by decide)
    · rw [hfx] at hcase
      exact absurd hcase (by decide)
  · rw [if_neg hax] at hfx
    exact absurd hfx (by decide)

theorem plain_fm_set_status (fm : Frontmatter) (st : Status) (now : Str)
    (h : PlainFrontmatter fm) (hnow : PlainStr now) (hnn : now ≠ "null".toList) :
    PlainFrontmatter (fm_set_status fm st now) := by
  obtain ⟨h1, h2, h3, h4, h5, h6, h7, h8, h9, h10, h11⟩ := h
  exact ⟨h1, h2, h3, status_as_str_plain st, h5, h6, h7, h8, h9, ⟨hnow, hnn⟩, h11⟩

theorem plain_fm_set_due (fm : Frontmatter) (due now : Str)
    (h : PlainFrontmatter fm) (hnow : PlainStr now) (hnn : now ≠ "null".toList)
    (hdue : PlainStr due) (hdn : due ≠ "null".toList) :
    PlainFrontmatter (fm_set_due fm due now) := by
  obtain ⟨h1, h2, h3, h4, h5, h6, h7, h8, h9, h10, h11⟩ := h
  exact ⟨h1, h2, h3, h4, h5, h6, h7, ⟨hdue, hdn⟩, h9, ⟨hnow, hnn⟩, h11⟩

theorem plain_fm_set_tags (fm : Frontmatter) (csv now : Str)
    (h : PlainFrontmatter fm) (hnow : PlainStr now) (hnn : now ≠ "null".toList)
    (hcsv : PlainStr csv) :
    PlainFrontmatter (fm_set_tags fm csv now) := by
  obtain ⟨h1, h2, h3, h4, h5, h6, h7, h8, h9, h10, h11⟩ := h
  exact ⟨h1, h2, h3, h4, h5, csv_tags_plain csv hcsv, h7, h8, h9, ⟨hnow, hnn⟩, h11⟩

theorem plain_fm_rename (fm : Frontmatter) (new_title now : Str)
    (h : PlainFrontmatter fm) (hnow : PlainStr now) (hnn : now ≠ "null".toList)
    (htitle : PlainStr new_title) :
    PlainFrontmatter (fm_rename fm new_title now) := by
  obtain ⟨h1, h2, h3, h4, h5, h6, h7, h8, h9, h10, h11⟩ := h
  exact ⟨h1, slugify_plain new_title, htitle, h4, h5, h6, h7, h8, h9, ⟨hnow, hnn⟩, h11⟩

/-! ## Lemmas for the open ex-command branch -/

theorem open_loop_no_proj (toks : List Str) (acc : Option Str)
    (h : ∀ t ∈ toks, proj_flag.isPrefixOf t = false) : open_loop toks acc = acc := by
  induction toks generalizing acc with
  | nil => rfl
  | cons t ts ih =>
    rw [open_loop, h t (List.mem_cons_self _ _)]
    exact ih acc (fun x hx => h x (List.mem_cons_of_mem _ hx))

theorem open_loop_append (a b : List Str) (acc : Option Str) :
    open_loop (a ++ b) acc = open_loop b (open_loop a acc) := by
  induction a generalizing acc with
  | nil => rfl
  | cons t ts ih =>
    rw [List.cons_append, open_loop, open_loop, ih]

/-! ## Claim theorems -/

/-- C6: for every status, three forward cycle steps return to the start
(the lifecycle is a 3-cycle), and one forward step followed by one backward
step is the identity. -/
theorem c6_status_cycle (s : Status) : s.next.next.next = s ∧ s.next.prev = s := by
  cases s <;> exact ⟨rfl, rfl⟩

/-- C9: every status string that is not one of the recognized Doing tokens
(doing, in-progress, in_progress) or the Done token (done) decodes to Todo;
Status::from_str is total, so decoding never fails. -/
theorem c9_unknown_status_decodes_todo (s : Str)
    (h1 : s ≠ "doing".toList) (h2 : s ≠ "in-progress".toList)
    (h3 : s ≠ "in_progress".toList) (h4 : s ≠ "done".toList) :
    Status.from_str s = Status.Todo := by
  rw [Status.from_str, if_neg (fun hor => hor.elim h1 (fun ho => ho.elim h2 h3)), if_neg h4]

/-- Witness for C9 at the concrete unknown status string wip. -/
theorem c9_unknown_status_decodes_todo_witness :
    Status.from_str ("wip".toList) = Status.Todo :=
  c9_unknown_status_decodes_todo ("wip".toList) (by decide) (by decide) (by decide) (by decide)

/-- C4 counterexample: on a visible list of length 5 with selection 0, the
code moves down by 2 = floor(5 / 2), not by ceil(5 / 2) = 3 as the claim
states. -/
theorem c4_half_page_counterexample :
    half_page_down_step 5 0 = 2 ∧ half_page_down_step 5 0 ≠ min (0 + (5 + 1) / 2) (5 - 1) := by
  decide

/-- C4 amended: the half-page actions move the selection by exactly
max(floor(len / 2), 1) positions, down capped at len - 1 (saturating at 0
for the empty list) and up saturating at 0. -/
theorem c4_half_page_moves_floor_half (len selected : Nat) :
    half_page_down_step len selected = min (selected + max (len / 2) 1) (len - 1) ∧
    half_page_up_step len selected = selected - max (len / 2) 1 := by
  unfold half_page_down_step half_page_up_step
  cases len with
  | zero => simp
  | succ n =>
    rw [Nat.max_eq_left (Nat.succ_le_succ (Nat.zero_le n))]
    exact ⟨rfl, rfl⟩

/-- Helper for C3: no entry of the built-in default keymap carries the
GoTop action. -/
theorem default_keymap_no_gotop : ∀ p ∈ default_keymap, p.2 ≠ Action.GoTop := by
  decide

/-- C3 counterexample: it is not the case that every Action variant is
reachable through some token of the built-in default keymap; GoTop has no
binding (it is reachable only through the hard-coded gg chord of the modal
layer). -/
theorem c3_defaults_counterexample :
    ¬ (∀ a : Action, ∃ token : String, Keymap.lookup default_keymap token = some a) := by
  intro hAll
  obtain ⟨tok, htok⟩ := hAll Action.GoTop
  unfold Keymap.lookup at htok
  obtain ⟨p, hfind, hsnd⟩ := Option.map_eq_some'.mp htok
  exact default_keymap_no_gotop p (List.mem_of_find?_eq_some hfind) hsnd

/-- C3 amended: every Action variant except GoTop resolves from at least
one token of the built-in default keymap. -/
theorem c3_defaults_cover_all_but_gotop (a : Action) (h : a ≠ Action.GoTop) :
    ∃ token : String, Keymap.lookup default_keymap token = some a := by
  cases a with
  | MoveDown => exact ⟨"j", by decide⟩
  | MoveUp => exact ⟨"k", by decide⟩
  | HalfPageDown => exact ⟨"Ctrl-d", by decide⟩
  | HalfPageUp => exact ⟨"Ctrl-u", by decide⟩
  | GoTop => exact absurd rfl h
  | GoBottom => exact ⟨"G", by decide⟩
  | FocusFilter => exact ⟨"/", by decide⟩
  | Quit => exact ⟨"q", by decide⟩
  | StatusNext => exact ⟨"x", by decide⟩
  | StatusPrev => exact ⟨"X", by decide⟩
  | SetTodo => exact ⟨"1", by decide⟩
  | SetDoing => exact ⟨"2", by decide⟩
  | SetDone => exact ⟨"3", by decide⟩

/-- Witness for the amended C3 at the MoveDown action. -/
theorem c3_defaults_cover_all_but_gotop_witness :
    ∃ token : String, Keymap.lookup default_keymap token = some Action.MoveDown :=
  c3_defaults_cover_all_but_gotop Action.MoveDown (by decide)

/-- C8: the documented example line parses to the expected New command, and
the bare line new fails with the title validation error. -/
theorem c8_parse_new_example :
    parse_ex ("new \"Buy milk\" project:home +errand due:2025-09-01".toList) =
      Except.ok (ExCommand.New ("Buy milk".toList) (some ("home".toList))
        [("errand".toList)] (some ("2025-09-01".toList))) ∧
    parse_ex ("new".toList) =
      Except.error ":new requires a title (quoted if it has spaces)" := by
  constructor <;> decide

set_option maxRecDepth 40000 in
/-- C1 (code bug evidence): list_tasks ignores its project filter argument.
Scanning one file whose record belongs to project home while filtering for
project work still returns that record, instead of the empty listing the
filter contract requires. -/
theorem c1_ls_ignores_project_filter :
    list_tasks [encode_record sample_home_task []] (some ("work".toList))
      = [fm_to_task sample_home_task] ∧
    (fm_to_task sample_home_task).project ≠ "work".toList := by
  constructor <;> decide

set_option maxRecDepth 40000 in
/-- C2 (code bug evidence): create_task accepts the empty title instead of
failing.  The record it builds has the empty title and slug, status todo and
created equal to updated, and to_markdown of it is a well-formed record
file. -/
theorem c2_create_task_empty_title_succeeds :
    sample_created_empty.title = [] ∧
    sample_created_empty.status = "todo".toList ∧
    sample_created_empty.created = sample_created_empty.updated ∧
    extract_frontmatter_and_body sample_created_empty.to_markdown
      = some (sample_created_empty, ['\n']) := by
  refine ⟨rfl, rfl, rfl, ?_⟩
  decide

/-- C7: a listing scan over decodable record files plus one file whose
metadata cannot be decoded returns exactly the records of the decodable
files; the corrupt file is skipped and never fails the listing. -/
theorem c7_corrupt_file_skipped (good : List Str) (bad : Str)
    (hgood : ∀ f ∈ good, (Task.from_md_file f).isSome)
    (hbad : Task.from_md_file bad = none) :
    (list_tasks (good ++ [bad]) none).length = good.length := by
  unfold list_tasks
  rw [sort_by_updated_length, List.filterMap_append]
  simp [List.filterMap_cons, hbad, filterMap_length_of_isSome _ _ hgood]

set_option maxRecDepth 40000 in
/-- Witness for C7: one well-formed file plus one file with no frontmatter
lists exactly one record. -/
theorem c7_corrupt_file_skipped_witness :
    (list_tasks ([encode_record sample_scan_task ("notes\n".toList)]
      ++ ["no frontmatter here".toList]) none).length = 1 :=
  c7_corrupt_file_skipped _ _ (by decide) (by decide)

/-- C5: every metadata-only mutation (set_status, set_due, set_tags_csv,
rename_title) rewrites a record file re-encoding the decoded metadata over
the unchanged body, the rewritten file decodes back to exactly the updated
metadata with the body preserved byte for byte, and decoding after encoding
reproduces every metadata field (the round trip). -/
theorem c5_mutations_preserve_body (fm : Frontmatter) (body now due2 csv title2 : Str)
    (st : Status) (h : PlainFrontmatter fm)
    (hnow : PlainStr now) (hnn : now ≠ "null".toList)
    (hdue : PlainStr due2) (hdn : due2 ≠ "null".toList)
    (hcsv : PlainStr csv) (htitle : PlainStr title2) :
    set_status (encode_record fm body) st now
        = some (encode_record (fm_set_status fm st now) body) ∧
    extract_frontmatter_and_body (encode_record (fm_set_status fm st now) body)
        = some (fm_set_status fm st now, body) ∧
    set_due (encode_record fm body) due2 now
        = some (encode_record (fm_set_due fm due2 now) body) ∧
    extract_frontmatter_and_body (encode_record (fm_set_due fm due2 now) body)
        = some (fm_set_due fm due2 now, body) ∧
    set_tags_csv (encode_record fm body) csv now
        = some (encode_record (fm_set_tags fm csv now) body) ∧
    extract_frontmatter_and_body (encode_record (fm_set_tags fm csv now) body)
        = some (fm_set_tags fm csv now, body) ∧
    rename_title (encode_record fm body) title2 now
        = some (encode_record (fm_rename fm title2 now) body) ∧
    extract_frontmatter_and_body (encode_record (fm_rename fm title2 now) body)
        = some (fm_rename fm title2 now, body) ∧
    extract_frontmatter_and_body (encode_record fm body) = some (fm, body) := by
  have hrt := decode_encode fm body h
  refine ⟨?_, ?_, ?_, ?_, ?_, ?_, ?_, ?_, hrt⟩
  · unfold set_status
    rw [hrt]
    rfl
  · exact decode_encode _ _ (plain_fm_set_status fm st now h hnow hnn)
  · unfold set_due
    rw [hrt]
    rfl
  · exact decode_encode _ _ (plain_fm_set_due fm due2 now h hnow hnn hdue hdn)
  · unfold set_tags_csv
    rw [hrt]
    rfl
  · exact decode_encode _ _ (plain_fm_set_tags fm csv now h hnow hnn hcsv)
  · unfold rename_title
    rw [hrt]
    rfl
  · exact decode_encode _ _ (plain_fm_rename fm title2 now h hnow hnn htitle)

/-- Witness for C5 at a concrete record, body, timestamp, status, due date,
tag list and new title. -/
theorem c5_mutations_preserve_body_witness :
    set_status (encode_record sample_record ("Remember the oat milk.\nSecond line.".toList))
        Status.Done ("2025-09-02T08:00:00Z".toList)
      = some (encode_record
          (fm_set_status sample_record Status.Done ("2025-09-02T08:00:00Z".toList))
          ("Remember the oat milk.\nSecond line.".toList)) ∧
    extract_frontmatter_and_body (encode_record
          (fm_set_status sample_record Status.Done ("2025-09-02T08:00:00Z".toList))
          ("Remember the oat milk.\nSecond line.".toList))
      = some (fm_set_status sample_record Status.Done ("2025-09-02T08:00:00Z".toList),
          "Remember the oat milk.\nSecond line.".toList) ∧
    set_due (encode_record sample_record ("Remember the oat milk.\nSecond line.".toList))
        ("2025-10-01".toList) ("2025-09-02T08:00:00Z".toList)
      = some (encode_record
          (fm_set_due sample_record ("2025-10-01".toList) ("2025-09-02T08:00:00Z".toList))
          ("Remember the oat milk.\nSecond line.".toList)) ∧
    extract_frontmatter_and_body (encode_record
          (fm_set_due sample_record ("2025-10-01".toList) ("2025-09-02T08:00:00Z".toList))
          ("Remember the oat milk.\nSecond line.".toList))
      = some (fm_set_due sample_record ("2025-10-01".toList) ("2025-09-02T08:00:00Z".toList),
          "Remember the oat milk.\nSecond line.".toList) ∧
    set_tags_csv (encode_record sample_record ("Remember the oat milk.\nSecond line.".toList))
        ("+urgent groceries".toList) ("2025-09-02T08:00:00Z".toList)
      = some (encode_record
          (fm_set_tags sample_record ("+urgent groceries".toList) ("2025-09-02T08:00:00Z".toList))
          ("Remember the oat milk.\nSecond line.".toList)) ∧
    extract_frontmatter_and_body (encode_record
          (fm_set_tags sample_record ("+urgent groceries".toList) ("2025-09-02T08:00:00Z".toList))
          ("Remember the oat milk.\nSecond line.".toList))
      = some (fm_set_tags sample_record ("+urgent groceries".toList)
            ("2025-09-02T08:00:00Z".toList),
          "Remember the oat milk.\nSecond line.".toList) ∧
    rename_title (encode_record sample_record ("Remember the oat milk.\nSecond line.".toList))
        ("Buy oat milk".toList) ("2025-09-02T08:00:00Z".toList)
      = some (encode_record
          (fm_rename sample_record ("Buy oat milk".toList) ("2025-09-02T08:00:00Z".toList))
          ("Remember the oat milk.\nSecond line.".toList)) ∧
    extract_frontmatter_and_body (encode_record
          (fm_rename sample_record ("Buy oat milk".toList) ("2025-09-02T08:00:00Z".toList))
          ("Remember the oat milk.\nSecond line.".toList))
      = some (fm_rename sample_record ("Buy oat milk".toList) ("2025-09-02T08:00:00Z".toList),
          "Remember the oat milk.\nSecond line.".toList) ∧
    extract_frontmatter_and_body
        (encode_record sample_record ("Remember the oat milk.\nSecond line.".toList))
      = some (sample_record, "Remember the oat milk.\nSecond line.".toList) :=
  c5_mutations_preserve_body sample_record
    ("Remember the oat milk.\nSecond line.".toList) ("2025-09-02T08:00:00Z".toList)
    ("2025-10-01".toList) ("+urgent groceries".toList) ("Buy oat milk".toList)
    Status.Done (by decide) (by decide) (by decide) (by decide) (by decide) (by decide)
    (by decide)

/-- C10: an open ex-command line with no project: token parses successfully
to an OpenProject command whose key is the empty string, and when several
project: tokens are present the last one supplies the key. -/
theorem c10_open_branch (line : Str) (toks : List Str)
    (hcfg : trim_str line ≠ "config.reload".toList)
    (htok : tokenize (trim_str line) = "open".toList :: toks) :
    ((∀ t ∈ toks, proj_flag.isPrefixOf t = false) →
        parse_ex line = Except.ok (ExCommand.OpenProject [])) ∧
    (∀ ts1 ts2 k, toks = ts1 ++ (proj_flag ++ k) :: ts2 →
        (∀ t ∈ ts2, proj_flag.isPrefixOf t = false) →
        parse_ex line = Except.ok (ExCommand.OpenProject k)) := by
  have hne : trim_str line ≠ [] := by
    intro hE
    rw [hE] at htok
    exact absurd htok (by simp [tokenize, tokenize_go])
  have hred : parse_ex line = Except.ok (ExCommand.OpenProject ((open_loop toks none).getD [])) := by
    unfold parse_ex
    rw [if_neg hne, if_neg hcfg, htok]
    rfl
  constructor
  · intro hno
    rw [hred, open_loop_no_proj toks none hno]
    rfl
  · intro ts1 ts2 k hdecomp hno
    rw [hred, hdecomp, open_loop_append, open_loop,
      (by rw [List.isPrefixOf_iff_prefix]; exact List.prefix_append proj_flag k :
        proj_flag.isPrefixOf (proj_flag ++ k) = true)]
    rw [open_loop_no_proj ts2 _ hno]
    simp [List.drop_left]

/-- Witness for C10: the bare open line yields the empty key, and with two
project: tokens the second one wins. -/
theorem c10_open_branch_witness :
    parse_ex ("open".toList) = Except.ok (ExCommand.OpenProject []) ∧
    parse_ex ("open task project:a project:b".toList)
      = Except.ok (ExCommand.OpenProject ("b".toList)) :=
  ⟨(c10_open_branch ("open".toList) [] (by decide) (by decide)).1 (by decide),
   (c10_open_branch ("open task project:a project:b".toList)
      [("task".toList), ("project:a".toList), ("project:b".toList)]
      (by decide) (by decide)).2
      [("task".toList), ("project:a".toList)] [] ("b".toList) (by decide) (by decide)⟩

end TM

